import Mathlib

/-!
Shallow embedding of the bt-manager-api job registry (src/main.py, src/tasks.py).

The registry maps job identities to records (`TaskData`).  Each record owns an
asyncio-task handle; the lifecycle state is derived on demand from the handle's
raw status (`TaskData.state_result`).  Python-side details are modelled as:

* identities (`uuid1()` strings) as naturals drawn from a monotone counter
  `Registry.nextId`, so freshness and non-reuse are explicit;
* `datetime.now()` as a monotone `Registry.clock` tick;
* the registry dict `tasks` as an insertion-ordered association list
  (Python dicts preserve insertion order, which the dedup scan of
  `_create_task` and the listing order of `read_tasks` rely on);
* keyword-argument dicts as association lists in canonical form, whose
  structural equality models Python dict value equality (`==`);
* an asyncio task handle (`ATask`) by its name tag, its raw status as seen
  through `Task.result()` (`RawStatus`), and whether cancellation has been
  requested.  `Task.cancel()` is asynchronous: it never changes the raw
  status synchronously, it only requests cancellation (a no-op on a task
  that is already done);
* the done-callback `finish_callback` registered by `_create_task` fires as
  part of the environment step `completeTask` that finishes a task.
-/

/-- Values carried by keyword arguments and task results (opaque to the
registry, only compared for equality). -/
inductive Val where
  | num (n : Int)
  | str (s : String)
  | boolean (b : Bool)
deriving DecidableEq, Repr

/-- Keyword-argument dict in canonical association-list form; structural
equality models Python dict value equality. -/
abbrev Kwargs := List (String × Val)

/-- The lifecycle states enumerated in the comment of `TaskData`
(src/main.py lines 30-36). -/
inductive TState where
  | PENDING
  | STARTED
  | SUCCESS
  | FAILURE
  | RETRY
  | REVOKED
deriving DecidableEq, Repr

/-- Raw status of an asyncio task handle, as observable through
`Task.result()`: raises `InvalidStateError` while not finished, returns the
value on normal completion, raises `CancelledError` after cancellation
completes, raises the stored exception on internal failure. -/
inductive RawStatus where
  | notFinished
  | finishedOk (v : Val)
  | finishedCancelled
  | finishedError
deriving DecidableEq, Repr

/-- An asyncio task handle: name tag (set by the factory), raw status, and
whether cancellation has been requested. -/
structure ATask where
  name : String
  status : RawStatus
  cancelRequested : Bool
deriving DecidableEq, Repr

/-- Model of `Task.done()`: the task has finished (by success, failure or
cancellation). -/
def ATask.done (t : ATask) : Bool :=
  decide (t.status ≠ RawStatus.notFinished)

/-- Model of `Task.cancel()`: requests cancellation; synchronously a no-op on a task
that is already done, and never changes the raw status by itself. -/
def ATask.cancel (t : ATask) : ATask :=
  if t.status = RawStatus.notFinished then { t with cancelRequested := true } else t

/-- Model of `TaskData` (src/main.py lines 19-61): one registry record. -/
structure TaskData where
  uuid : Nat
  task : ATask
  kwargs : Kwargs
  start_date : Nat
  end_date : Option Nat
deriving DecidableEq, Repr

/-- Model of `TaskData.state_result` (src/main.py lines 48-61): derive the lifecycle
state and result from the handle by attempting `task.result()` and
classifying the outcome. -/
def TaskData.state_result (td : TaskData) : TState × Option Val :=
  match td.task.status with
  | RawStatus.finishedOk v => (TState.SUCCESS, some v)
  | RawStatus.finishedCancelled => (TState.REVOKED, none)
  | RawStatus.notFinished => (TState.STARTED, none)
  | RawStatus.finishedError => (TState.FAILURE, none)

/-- Model of `TaskData.is_in_process` (src/main.py lines 38-39). -/
def TaskData.is_in_process (td : TaskData) : Bool :=
  decide (td.state_result.1 ∈ [TState.PENDING, TState.STARTED, TState.RETRY])

/-- Model of `TaskData.is_not_in_process` (src/main.py lines 41-42). -/
def TaskData.is_not_in_process (td : TaskData) : Bool :=
  decide (td.state_result.1 ∈ [TState.SUCCESS, TState.FAILURE, TState.REVOKED])

/-- Model of `TaskData.name` (src/main.py lines 44-46): the task handle's name tag. -/
def TaskData.name (td : TaskData) : String :=
  td.task.name

/-- Model of `TaskInfo` (src/main.py lines 67-88). -/
structure TaskInfo where
  uuid : Nat
  name : String
  kwargs : Kwargs
  start_date : Nat
  end_date : Option Nat
  state : TState
  result : Option Val
deriving DecidableEq, Repr

/-- Model of `TaskInfo.from_task_data` (src/main.py lines 76-88): the state and result
fields are recomputed from the handle via `state_result` on every call. -/
def TaskInfo.from_task_data (td : TaskData) : TaskInfo :=
  { uuid := td.uuid
    name := td.task.name
    kwargs := td.kwargs
    start_date := td.start_date
    end_date := td.end_date
    state := td.state_result.1
    result := td.state_result.2 }

/-- Model of `ErrorInfo` (src/main.py lines 95-122). -/
structure ErrorInfo where
  uuid : Nat
  error_code : Nat
  error_msg : String
deriving DecidableEq, Repr

/-- Model of `ErrorInfo.not_exist_data` (src/main.py lines 100-106). -/
def ErrorInfo.not_exist_data (uuid : Nat) : ErrorInfo :=
  { uuid := uuid, error_code := 0, error_msg := "the task does not exist" }

/-- Model of `ErrorInfo.in_process_data` (src/main.py lines 108-114). -/
def ErrorInfo.in_process_data (uuid : Nat) : ErrorInfo :=
  { uuid := uuid, error_code := 0, error_msg := "task is in process" }

/-- Model of `ErrorInfo.not_in_process_data` (src/main.py lines 116-122). -/
def ErrorInfo.not_in_process_data (uuid : Nat) : ErrorInfo :=
  { uuid := uuid, error_code := 0, error_msg := "task is not in process" }

/-- The process state: the module-level dict `tasks` (insertion-ordered
association list), plus the identity counter modelling `uuid1()` freshness
and the clock modelling `datetime.now()`. -/
structure Registry where
  tasks : List (Nat × TaskData)
  nextId : Nat
  clock : Nat
deriving DecidableEq, Repr

/-- Model of `datetime.now()`: read the clock and advance it. -/
def Registry.now (r : Registry) : Nat × Registry :=
  (r.clock, { r with clock := r.clock + 1 })

/-- Dict lookup `tasks[id_]` / membership `id_ in tasks`. -/
def lookupTask (r : Registry) (id : Nat) : Option TaskData :=
  (r.tasks.find? (fun kv => decide (kv.1 = id))).map (fun kv => kv.2)

/-- Model of `id_ in tasks`. -/
def hasTask (r : Registry) (id : Nat) : Bool :=
  (lookupTask r id).isSome

/-- In-place mutation of the record stored under a key (record fields are
mutated through the dict in the Python code). -/
def updateTask (r : Registry) (id : Nat) (f : TaskData → TaskData) : Registry :=
  { r with tasks := r.tasks.map (fun kv => if kv.1 = id then (kv.1, f kv.2) else kv) }

/-- Model of `del tasks[id_]`. -/
def removeTask (r : Registry) (id : Nat) : Registry :=
  { r with tasks := r.tasks.filter (fun kv => decide (kv.1 ≠ id)) }

/-- The names registered in `tasks_factory` (src/tasks.py lines 95-99). -/
def tasks_factory_names : List String :=
  ["sleep_10_task", "sleep_100_task", "sleep_1000_task"]

/-- Model of `tasks_factory[name](**kwargs)` (src/tasks.py): each factory function
ignores its arguments and starts a fresh unit of work whose handle carries
the function's name; an unknown name raises `KeyError` (`none`). -/
def factoryMake (name : String) : Option ATask :=
  if name ∈ tasks_factory_names then
    some { name := name, status := RawStatus.notFinished, cancelRequested := false }
  else
    none

/-- The dedup-scan predicate of `_create_task` (src/main.py lines 126-133). -/
def dupPred (name : String) (kwargs : Kwargs) (kv : Nat × TaskData) : Bool :=
  decide (kv.2.name = name ∧ kv.2.kwargs = kwargs ∧ kv.2.is_in_process = true)

/-- Model of `_create_task` (src/main.py lines 125-152): scan for an in-process
duplicate (same name, value-equal kwargs) and return its identity unchanged;
otherwise ask the factory for a new handle, wrap it in a fresh record with a
fresh identity, insert it, and register the done-callback (modelled in
`completeTask`).  `none` models the `KeyError` escaping from
`tasks_factory[name]`. -/
def _create_task (name : String) (kwargs : Kwargs) (r : Registry) :
    Option (Nat × Registry) :=
  match r.tasks.find? (dupPred name kwargs) with
  | some kv => some (kv.2.uuid, r)
  | none =>
    match factoryMake name with
    | none => none
    | some task =>
      let p := r.now
      let uuid := p.2.nextId
      let td : TaskData :=
        { uuid := uuid, task := task, kwargs := kwargs
          start_date := p.1, end_date := none }
      some (uuid, { p.2 with tasks := p.2.tasks ++ [(uuid, td)], nextId := p.2.nextId + 1 })

/-- Environment step: the asyncio event loop finishes the task stored under
`id` with outcome `out`, and the done-callback `finish_callback` registered
at creation (src/main.py lines 146-150) fires, writing `end_date := now`. -/
def completeTask (r : Registry) (id : Nat) (out : RawStatus) : Registry :=
  let p := r.now
  updateTask p.2 id (fun td =>
    { td with task := { td.task with status := out }, end_date := some p.1 })

/-- Model of `_cancel_task` (src/main.py lines 155-157): request cancellation on the
handle and immediately write `end_date := datetime.now()`. -/
def _cancel_task (id : Nat) (r : Registry) : Registry :=
  let p := r.now
  updateTask p.2 id (fun td =>
    { td with task := td.task.cancel, end_date := some p.1 })

/-- Model of `_delete_task` (src/main.py lines 160-163): request cancellation if the
handle is not done, then remove the record from the dict. -/
def _delete_task (id : Nat) (r : Registry) : Registry :=
  let r1 :=
    if (lookupTask r id).any (fun td => ! td.task.done) then
      updateTask r id (fun td => { td with task := td.task.cancel })
    else r
  removeTask r1 id

/-- An entry of the `list[TaskInfo | ErrorInfo]` responses. -/
inductive ReadEntry where
  | info (i : TaskInfo)
  | err (e : ErrorInfo)
deriving DecidableEq, Repr

/-- The per-identity entry built by the list comprehension of `read_tasks`
(src/main.py lines 202-205). -/
def readEntryOf (r : Registry) (id : Nat) : ReadEntry :=
  match lookupTask r id with
  | some td => ReadEntry.info (TaskInfo.from_task_data td)
  | none => ReadEntry.err (ErrorInfo.not_exist_data id)

/-- Model of `read_tasks` (src/main.py lines 195-206): with no identities, list every
record; otherwise one entry per element of the request list (the list is NOT
deduplicated here), each either the `TaskInfo` or a not-exist error.  Purely
observational: the registry is not touched. -/
def read_tasks (ids : Option (List Nat)) (r : Registry) : List ReadEntry :=
  match ids with
  | none => r.tasks.map (fun kv => ReadEntry.info (TaskInfo.from_task_data kv.2))
  | some l => l.map (readEntryOf r)

/-- One iteration of the loop of `cancel_tasks` over `set(ids)`
(src/main.py lines 219-229). -/
def cancelStep (p : List ErrorInfo × Registry) (id : Nat) :
    List ErrorInfo × Registry :=
  match lookupTask p.2 id with
  | none => (p.1 ++ [ErrorInfo.not_exist_data id], p.2)
  | some td =>
    if td.is_not_in_process then
      (p.1 ++ [ErrorInfo.not_in_process_data id], p.2)
    else
      (p.1, _cancel_task id p.2)

/-- Model of `cancel_tasks` (src/main.py lines 209-230).  With no identities the code
collects the ids whose record `is_not_in_process()` (sic) and cancels those;
with identities it deduplicates the request (`set(ids)`, modelled as
first-occurrence order) and reports not-exist / not-in-process errors,
cancelling the rest. -/
def cancel_tasks (ids : Option (List Nat)) (r : Registry) :
    List ErrorInfo × Registry :=
  match ids with
  | none =>
    let running_task_ids :=
      (r.tasks.filter (fun kv => kv.2.is_not_in_process)).map (fun kv => kv.1)
    ([], running_task_ids.foldl (fun acc id => _cancel_task id acc) r)
  | some l => l.eraseDups.foldl cancelStep ([], r)

/-- One iteration of the loop of `delete_tasks` over `set(ids)`
(src/main.py lines 242-249). -/
def deleteStep (p : List ErrorInfo × Registry) (id : Nat) :
    List ErrorInfo × Registry :=
  if hasTask p.2 id then
    (p.1, _delete_task id p.2)
  else
    (p.1 ++ [ErrorInfo.not_exist_data id], p.2)

/-- Model of `delete_tasks` (src/main.py lines 233-250).  With no identities the code
runs `_cancel_task` on every key and removes nothing; with identities it
deduplicates the request and deletes each present record, reporting
not-exist errors for the rest. -/
def delete_tasks (ids : Option (List Nat)) (r : Registry) :
    List ErrorInfo × Registry :=
  match ids with
  | none =>
    ([], (r.tasks.map (fun kv => kv.1)).foldl (fun acc id => _cancel_task id acc) r)
  | some l => l.eraseDups.foldl deleteStep ([], r)

/-- One iteration of the loop of `recreate_tasks` over `set(ids)`
(src/main.py lines 177-190). -/
def recreateStep (p : List ReadEntry × Registry) (id : Nat) :
    Option (List ReadEntry × Registry) :=
  match lookupTask p.2 id with
  | none => some (p.1 ++ [ReadEntry.err (ErrorInfo.not_exist_data id)], p.2)
  | some td =>
    if td.is_in_process then
      some (p.1 ++ [ReadEntry.err (ErrorInfo.in_process_data id)], p.2)
    else
      match _create_task td.name td.kwargs p.2 with
      | none => none
      | some q =>
        match lookupTask q.2 q.1 with
        | none => none
        | some td2 =>
          some (p.1 ++ [ReadEntry.info (TaskInfo.from_task_data td2)], q.2)

/-- Model of `recreate_tasks` (src/main.py lines 172-192): for each distinct
requested identity, not-exist error if absent, in-process error if the
record is in flight, otherwise call `_create_task` with the record's name
and kwargs as template and return the resulting record's info.  `none`
models an exception escaping the handler. -/
def recreate_tasks (ids : List Nat) (r : Registry) :
    Option (List ReadEntry × Registry) :=
  ids.eraseDups.foldlM recreateStep ([], r)

/-- The registry state reached by running the `recreate_tasks` loop over an
already-deduplicated id list, keeping the mutations of the iterations that
ran even when a later iteration raises (the accumulated response list is
irrelevant to the state, so it is dropped). -/
def recreateRun (r : Registry) : List Nat → Registry
  | [] => r
  | id :: rest =>
    match recreateStep ([], r) id with
    | none => r
    | some p => recreateRun p.2 rest

/-- Well-formedness of a reachable registry state: keys are unique (it is a
dict), keys coincide with record identities, every identity was drawn from
the counter, and every record's handle came out of the factory. -/
def Registry.Wf (r : Registry) : Prop :=
  (r.tasks.map Prod.fst).Nodup ∧
  ∀ kv ∈ r.tasks, kv.2.uuid = kv.1 ∧ kv.1 < r.nextId ∧ kv.2.task.name ∈ tasks_factory_names

/-- External operations on the registry process: the four endpoint handlers
plus the environment finishing a task. -/
inductive Op where
  | create (name : String) (kwargs : Kwargs)
  | recreate (ids : List Nat)
  | read (ids : Option (List Nat))
  | cancel (ids : Option (List Nat))
  | delete (ids : Option (List Nat))
  | complete (id : Nat) (out : RawStatus)

/-- State reached after one operation (outputs discarded).  A failing create
leaves the dict untouched (`_create_task` mutates nothing before raising
`KeyError`); a recreate that raises mid-loop keeps the mutations of the
iterations that already ran (`recreateRun`). -/
def applyOp (r : Registry) : Op → Registry
  | Op.create name kwargs =>
    match _create_task name kwargs r with
    | some p => p.2
    | none => r
  | Op.recreate ids => recreateRun r ids.eraseDups
  | Op.read _ => r
  | Op.cancel ids => (cancel_tasks ids r).2
  | Op.delete ids => (delete_tasks ids r).2
  | Op.complete id out => completeTask r id out

/-- State reached after a sequence of operations. -/
def applyOps (r : Registry) (ops : List Op) : Registry :=
  ops.foldl applyOp r

/-- An identity that is gone for good: it is not in the map and it is below
the identity counter, so no future create (which always draws a fresh
identity from the counter, as `uuid1()` never repeats) can ever mint it
again. -/
def Absent (id : Nat) (r : Registry) : Prop :=
  id < r.nextId ∧ hasTask r id = false

/-! Concrete fixture states used to evaluate the operations. -/

/-- A record whose task is still running (derived state `STARTED`). -/
def tdStarted : TaskData :=
  { uuid := 1
    task := { name := "sleep_10_task", status := RawStatus.notFinished, cancelRequested := false }
    kwargs := [("delay", Val.num 1)]
    start_date := 0
    end_date := none }

/-- A record whose task finished normally (derived state `SUCCESS`),
with its finish timestamp already written by the done-callback. -/
def tdDone : TaskData :=
  { uuid := 2
    task := { name := "sleep_10_task", status := RawStatus.finishedOk (Val.num 0), cancelRequested := false }
    kwargs := [("delay", Val.num 2)]
    start_date := 0
    end_date := some 3 }

/-- A registry holding one in-process record (key 1) and one terminal
record (key 2). -/
def regMixed : Registry :=
  { tasks := [(1, tdStarted), (2, tdDone)], nextId := 3, clock := 10 }

/-- A terminal record that can serve as a recreate template. -/
def tdTemplate : TaskData :=
  { uuid := 0
    task := { name := "sleep_10_task", status := RawStatus.finishedOk (Val.num 0), cancelRequested := false }
    kwargs := [("delay", Val.num 7)]
    start_date := 0
    end_date := some 2 }

/-- An in-process record with the same name and kwargs as `tdTemplate`. -/
def tdInflight : TaskData :=
  { uuid := 1
    task := { name := "sleep_10_task", status := RawStatus.notFinished, cancelRequested := false }
    kwargs := [("delay", Val.num 7)]
    start_date := 1
    end_date := none }

/-- A registry where the terminal record 0 and the in-process record 1
share the deduplication key (name, kwargs). -/
def regDup : Registry :=
  { tasks := [(0, tdTemplate), (1, tdInflight)], nextId := 2, clock := 5 }

/-! Basic classification lemmas. -/

theorem is_in_process_iff (td : TaskData) :
    td.is_in_process = true ↔ td.task.status = RawStatus.notFinished := by
  rcases td with ⟨u, ⟨n, st, c⟩, k, s, e⟩
  cases st <;> simp [TaskData.is_in_process, TaskData.state_result]

theorem is_not_in_process_iff (td : TaskData) :
    td.is_not_in_process = true ↔ td.task.status ≠ RawStatus.notFinished := by
  rcases td with ⟨u, ⟨n, st, c⟩, k, s, e⟩
  cases st <;> simp [TaskData.is_not_in_process, TaskData.state_result]

theorem not_in_process_eq_not (td : TaskData) :
    td.is_not_in_process = ! td.is_in_process := by
  rcases td with ⟨u, ⟨n, st, c⟩, k, s, e⟩
  cases st <;>
    simp [TaskData.is_in_process, TaskData.is_not_in_process, TaskData.state_result]

/-- C2: `state_result` maps each raw handle status to exactly one lifecycle
state — not finished to `STARTED`, finished without error to `SUCCESS` with
the result attached, finished with a non-cancellation error to `FAILURE`,
cancelled to `REVOKED`; the derivation is a pure function of the raw status
(so recomputing it on every query, as `TaskInfo.from_task_data` does, can
never go stale), and no status ever yields `RETRY` (nor `PENDING`). -/
theorem state_result_classification :
    (∀ td : TaskData, td.task.status = RawStatus.notFinished →
      td.state_result = (TState.STARTED, none)) ∧
    (∀ (td : TaskData) (v : Val), td.task.status = RawStatus.finishedOk v →
      td.state_result = (TState.SUCCESS, some v)) ∧
    (∀ td : TaskData, td.task.status = RawStatus.finishedError →
      td.state_result = (TState.FAILURE, none)) ∧
    (∀ td : TaskData, td.task.status = RawStatus.finishedCancelled →
      td.state_result = (TState.REVOKED, none)) ∧
    (∀ td₁ td₂ : TaskData, td₁.task.status = td₂.task.status →
      td₁.state_result = td₂.state_result) ∧
    (∀ td : TaskData, (TaskInfo.from_task_data td).state = td.state_result.1 ∧
      (TaskInfo.from_task_data td).result = td.state_result.2) ∧
    (∀ td : TaskData, td.state_result.1 ≠ TState.RETRY ∧
      td.state_result.1 ≠ TState.PENDING) := by
  refine ⟨?_, ?_, ?_, ?_, ?_, ?_, ?_⟩
  · intro td h; simp [TaskData.state_result, h]
  · intro td v h; simp [TaskData.state_result, h]
  · intro td h; simp [TaskData.state_result, h]
  · intro td h; simp [TaskData.state_result, h]
  · intro td₁ td₂ h; simp [TaskData.state_result, h]
  · intro td; exact ⟨rfl, rfl⟩
  · intro td
    rcases td with ⟨u, ⟨n, st, c⟩, k, s, e⟩
    cases st <;> simp [TaskData.state_result]

/-- Witness for C2 at a concrete handle that finished with a value. -/
theorem state_result_classification_witness :
    tdDone.task.status = RawStatus.finishedOk (Val.num 0) ∧
    tdDone.state_result = (TState.SUCCESS, some (Val.num 0)) :=
  ⟨by decide, state_result_classification.2.1 tdDone (Val.num 0) (by decide)⟩

/-- C3: evaluation of `cancel_tasks` with no identities on a registry with
one in-process record (key 1) and one terminal record (key 2).  The filter
on src/main.py line 214 selects the ids satisfying `is_not_in_process` —
the inverse of what the claim (and the spec) require — so the in-process
record is left running and untouched while the terminal record gets its
handle cancelled and its finish timestamp overwritten (from `some 3` to the
current clock `some 10`). -/
theorem cancel_all_inverted_filter_eval :
    (cancel_tasks none regMixed).1 = [] ∧
    tdStarted.is_in_process = true ∧
    lookupTask (cancel_tasks none regMixed).2 1 = some tdStarted ∧
    tdDone.is_not_in_process = true ∧
    tdDone.end_date = some 3 ∧
    (lookupTask (cancel_tasks none regMixed).2 2).map (fun td => td.end_date) =
      some (some 10) := by
  decide

/-- C4: evaluation of `delete_tasks` with no identities on `regMixed`.  The
loop on src/main.py lines 238-239 calls `_cancel_task` instead of
`_delete_task`, so no record is removed: afterwards the map still holds both
keys (the claim requires it to be empty), and even the terminal record's
finish timestamp is overwritten. -/
theorem delete_all_never_removes_eval :
    (delete_tasks none regMixed).1 = [] ∧
    (delete_tasks none regMixed).2.tasks.map (fun kv => kv.1) = [1, 2] ∧
    hasTask (delete_tasks none regMixed).2 1 = true ∧
    hasTask (delete_tasks none regMixed).2 2 = true ∧
    (lookupTask (delete_tasks none regMixed).2 2).map (fun td => td.end_date) =
      some (some 11) := by
  decide
/-! Lookup infrastructure: how `find?` over keys interacts with the
map/filter operations that implement record mutation and removal. -/

theorem find?_map_key_preserving (g : Nat × TaskData → Nat × TaskData)
    (hg : ∀ kv, (g kv).1 = kv.1) (p : Nat → Bool) :
    ∀ l : List (Nat × TaskData),
      (l.map g).find? (fun kv => p kv.1) = (l.find? (fun kv => p kv.1)).map g
  | [] => rfl
  | kv :: l => by
    cases hp : p kv.1
    · rw [List.map_cons,
        List.find?_cons_of_neg _ (by simp [hg, hp]),
        List.find?_cons_of_neg _ (by simp [hp]),
        find?_map_key_preserving g hg p l]
    · rw [List.map_cons,
        List.find?_cons_of_pos _ (by simp [hg, hp]),
        List.find?_cons_of_pos _ (by simp [hp])]
      rfl

theorem find?_filter_key (q p : Nat → Bool) (hq : ∀ k, p k = true → q k = true) :
    ∀ l : List (Nat × TaskData),
      (l.filter (fun kv => q kv.1)).find? (fun kv => p kv.1) =
        l.find? (fun kv => p kv.1)
  | [] => rfl
  | kv :: l => by
    cases hq2 : q kv.1
    · have hp : p kv.1 = false := by
        cases hp : p kv.1
        · rfl
        · rw [hq kv.1 hp] at hq2; exact absurd hq2 (by simp)
      rw [List.filter_cons_of_neg (by simp [hq2]),
        List.find?_cons_of_neg _ (by simp [hp]),
        find?_filter_key q p hq l]
    · cases hp : p kv.1
      · rw [List.filter_cons_of_pos (by simp [hq2]),
          List.find?_cons_of_neg _ (by simp [hp]),
          List.find?_cons_of_neg _ (by simp [hp]),
          find?_filter_key q p hq l]
      · rw [List.filter_cons_of_pos (by simp [hq2]),
          List.find?_cons_of_pos _ (by simp [hp]),
          List.find?_cons_of_pos _ (by simp [hp])]

theorem lookupTask_updateTask_self (r : Registry) (id : Nat) (f : TaskData → TaskData) :
    lookupTask (updateTask r id f) id = (lookupTask r id).map f := by
  have hg : ∀ kv : Nat × TaskData,
      ((fun kv => if kv.1 = id then (kv.1, f kv.2) else kv) kv).1 = kv.1 := by
    intro kv; by_cases h : kv.1 = id <;> simp [h]
  simp only [lookupTask, updateTask]
  rw [find?_map_key_preserving _ hg (fun k => decide (k = id))]
  cases h : r.tasks.find? (fun kv => decide (kv.1 = id)) with
  | none => rfl
  | some kv =>
    have hk : kv.1 = id := by simpa using List.find?_some h
    simp [hk]

theorem lookupTask_updateTask_ne (r : Registry) (id j : Nat) (f : TaskData → TaskData)
    (h : j ≠ id) :
    lookupTask (updateTask r id f) j = lookupTask r j := by
  have hg : ∀ kv : Nat × TaskData,
      ((fun kv => if kv.1 = id then (kv.1, f kv.2) else kv) kv).1 = kv.1 := by
    intro kv; by_cases hh : kv.1 = id <;> simp [hh]
  simp only [lookupTask, updateTask]
  rw [find?_map_key_preserving _ hg (fun k => decide (k = j))]
  cases hf : r.tasks.find? (fun kv => decide (kv.1 = j)) with
  | none => rfl
  | some kv =>
    have hk : kv.1 = j := by simpa using List.find?_some hf
    have hne : ¬ kv.1 = id := by rw [hk]; exact h
    simp [hne]

theorem lookupTask_removeTask_self (r : Registry) (id : Nat) :
    lookupTask (removeTask r id) id = none := by
  have : (r.tasks.filter (fun kv => decide (kv.1 ≠ id))).find?
      (fun kv => decide (kv.1 = id)) = none := by
    rw [List.find?_eq_none]
    intro kv hmem
    have h2 := List.of_mem_filter hmem
    simp at h2 ⊢
    exact h2
  simp only [lookupTask, removeTask]
  rw [this]
  rfl

theorem lookupTask_removeTask_ne (r : Registry) (id j : Nat) (h : j ≠ id) :
    lookupTask (removeTask r id) j = lookupTask r j := by
  have hq : ∀ k, (fun k => decide (k = j)) k = true → (fun k => decide (k ≠ id)) k = true := by
    intro k hk
    simp at hk ⊢
    rw [hk]; exact h
  simp only [lookupTask, removeTask]
  rw [find?_filter_key (fun k => decide (k ≠ id)) (fun k => decide (k = j)) hq]

theorem lookupTask_cancelTask_self (r : Registry) (id : Nat) :
    lookupTask (_cancel_task id r) id =
      (lookupTask r id).map
        (fun td => { td with task := td.task.cancel, end_date := some r.clock }) := by
  have h := lookupTask_updateTask_self
    { r with clock := r.clock + 1 } id
    (fun td => { td with task := td.task.cancel, end_date := some r.clock })
  exact h

theorem lookupTask_cancelTask_ne (r : Registry) (id j : Nat) (h : j ≠ id) :
    lookupTask (_cancel_task id r) j = lookupTask r j :=
  lookupTask_updateTask_ne { r with clock := r.clock + 1 } id j _ h

theorem cancelTask_nextId (r : Registry) (id : Nat) :
    (_cancel_task id r).nextId = r.nextId := rfl

theorem cancelTask_clock (r : Registry) (id : Nat) :
    (_cancel_task id r).clock = r.clock + 1 := rfl

theorem lookupTask_completeTask_self (r : Registry) (id : Nat) (out : RawStatus) :
    lookupTask (completeTask r id out) id =
      (lookupTask r id).map
        (fun td => { td with task := { td.task with status := out },
                             end_date := some r.clock }) :=
  lookupTask_updateTask_self { r with clock := r.clock + 1 } id _

theorem lookupTask_completeTask_ne (r : Registry) (id j : Nat) (out : RawStatus)
    (h : j ≠ id) :
    lookupTask (completeTask r id out) j = lookupTask r j :=
  lookupTask_updateTask_ne { r with clock := r.clock + 1 } id j _ h

theorem completeTask_nextId (r : Registry) (id : Nat) (out : RawStatus) :
    (completeTask r id out).nextId = r.nextId := rfl

theorem lookupTask_deleteTask_self (r : Registry) (id : Nat) :
    lookupTask (_delete_task id r) id = none := by
  unfold _delete_task
  by_cases hc : (lookupTask r id).any (fun td => ! td.task.done)
  · rw [if_pos hc]; exact lookupTask_removeTask_self _ _
  · rw [if_neg hc]; exact lookupTask_removeTask_self _ _

theorem lookupTask_deleteTask_ne (r : Registry) (id j : Nat) (h : j ≠ id) :
    lookupTask (_delete_task id r) j = lookupTask r j := by
  unfold _delete_task
  by_cases hc : (lookupTask r id).any (fun td => ! td.task.done)
  · rw [if_pos hc, lookupTask_removeTask_ne _ _ _ h, lookupTask_updateTask_ne _ _ _ _ h]
  · rw [if_neg hc, lookupTask_removeTask_ne _ _ _ h]

theorem deleteTask_nextId (r : Registry) (id : Nat) :
    (_delete_task id r).nextId = r.nextId := by
  unfold _delete_task
  by_cases hc : (lookupTask r id).any (fun td => ! td.task.done) <;>
    simp [hc, removeTask, updateTask]

theorem eraseDups_singleton (id : Nat) : [id].eraseDups = [id] := by
  simp [List.eraseDups, List.eraseDups.loop]

theorem cancel_tasks_singleton_in_process (r : Registry) (id : Nat) (td : TaskData)
    (h1 : lookupTask r id = some td) (h2 : td.is_in_process = true) :
    cancel_tasks (some [id]) r = ([], _cancel_task id r) := by
  have hnip : td.is_not_in_process = false := by
    rw [not_in_process_eq_not, h2]; rfl
  show [id].eraseDups.foldl cancelStep ([], r) = _
  rw [eraseDups_singleton]
  show cancelStep ([], r) id = _
  unfold cancelStep
  rw [h1]
  simp [hnip]

/-- C10: a per-identity cancel on an in-process record writes the finish
timestamp immediately, during the call, while the handle is still not
finished; a read issued right afterwards therefore reports a `TaskInfo`
whose `end_date` is set while its derived state is still `STARTED`. -/
theorem cancel_sets_end_date_early (r : Registry) (id : Nat) (td : TaskData)
    (h1 : lookupTask r id = some td) (h2 : td.is_in_process = true) :
    ∃ td2, lookupTask (cancel_tasks (some [id]) r).2 id = some td2 ∧
      td2.end_date = some r.clock ∧
      td2.task.cancelRequested = true ∧
      td2.state_result.1 = TState.STARTED ∧
      td2.is_in_process = true ∧
      read_tasks (some [id]) (cancel_tasks (some [id]) r).2 =
        [ReadEntry.info (TaskInfo.from_task_data td2)] ∧
      (TaskInfo.from_task_data td2).end_date = some r.clock ∧
      (TaskInfo.from_task_data td2).state = TState.STARTED := by
  have hst : td.task.status = RawStatus.notFinished := (is_in_process_iff td).1 h2
  rw [cancel_tasks_singleton_in_process r id td h1 h2]
  have hlook : lookupTask (_cancel_task id r) id =
      some { td with task := td.task.cancel, end_date := some r.clock } := by
    rw [lookupTask_cancelTask_self, h1]; rfl
  refine ⟨_, hlook, rfl, ?_, ?_, ?_, ?_, rfl, ?_⟩
  · simp [ATask.cancel, hst]
  · simp [TaskData.state_result, ATask.cancel, hst]
  · simp [TaskData.is_in_process, TaskData.state_result, ATask.cancel, hst]
  · simp [read_tasks, readEntryOf, hlook]
  · simp [TaskInfo.from_task_data, TaskData.state_result, ATask.cancel, hst]

/-- Witness for C10 on the concrete registry `regMixed`, cancelling its
in-process record 1. -/
theorem cancel_sets_end_date_early_witness :
    ∃ td2, lookupTask (cancel_tasks (some [1]) regMixed).2 1 = some td2 ∧
      td2.end_date = some regMixed.clock ∧
      td2.task.cancelRequested = true ∧
      td2.state_result.1 = TState.STARTED ∧
      td2.is_in_process = true ∧
      read_tasks (some [1]) (cancel_tasks (some [1]) regMixed).2 =
        [ReadEntry.info (TaskInfo.from_task_data td2)] ∧
      (TaskInfo.from_task_data td2).end_date = some regMixed.clock ∧
      (TaskInfo.from_task_data td2).state = TState.STARTED :=
  cancel_sets_end_date_early regMixed 1 tdStarted (by decide) (by decide)

/-- C5 counterexample: on the concrete registry `regMixed`, a per-identity
cancel of the in-process record 1 leaves the record still in process (its
handle not finished) yet with `end_date` already set to the current clock,
and when the cancelled handle later completes the done-callback writes
`end_date` a second time with a different value — contradicting both "never
set while in-process" and "set exactly once". -/
theorem end_date_written_in_process_cex :
    (lookupTask (cancel_tasks (some [1]) regMixed).2 1).map
        (fun td => (td.is_in_process, td.end_date)) = some (true, some 10) ∧
    (lookupTask
        (completeTask (cancel_tasks (some [1]) regMixed).2 1 RawStatus.finishedCancelled)
        1).map (fun td => td.end_date) = some (some 11) := by
  decide

/-- C5 amended: the finish timestamp is written by the completion callback
when the handle finishes, but `_cancel_task` (the per-identity cancel path)
also writes it eagerly at cancellation-request time, while the record's
derived state is still in-process; when the cancelled handle later
finishes, the callback overwrites it with a later value, so the timestamp
can be written twice. -/
theorem end_date_write_paths (r : Registry) (id : Nat) (td : TaskData)
    (h1 : lookupTask r id = some td) (h2 : td.is_in_process = true) :
    (∀ out : RawStatus, out ≠ RawStatus.notFinished →
      ∃ tdc, lookupTask (completeTask r id out) id = some tdc ∧
        tdc.end_date = some r.clock ∧ tdc.is_not_in_process = true) ∧
    (∃ td1, lookupTask (cancel_tasks (some [id]) r).2 id = some td1 ∧
      td1.end_date = some r.clock ∧ td1.is_in_process = true ∧
      ∃ td2, lookupTask
          (completeTask (cancel_tasks (some [id]) r).2 id RawStatus.finishedCancelled) id
          = some td2 ∧
        td2.end_date = some (r.clock + 1) ∧ r.clock + 1 ≠ r.clock) := by
  have hst : td.task.status = RawStatus.notFinished := (is_in_process_iff td).1 h2
  constructor
  · intro out hout
    refine ⟨_, by rw [lookupTask_completeTask_self, h1]; rfl, rfl, ?_⟩
    exact (is_not_in_process_iff _).2 hout
  · rw [cancel_tasks_singleton_in_process r id td h1 h2]
    have hlook : lookupTask (_cancel_task id r) id =
        some { td with task := td.task.cancel, end_date := some r.clock } := by
      rw [lookupTask_cancelTask_self, h1]; rfl
    refine ⟨_, hlook, rfl, ?_, ?_⟩
    · simp [TaskData.is_in_process, TaskData.state_result, ATask.cancel, hst]
    · have htd2 : lookupTask
          (completeTask (_cancel_task id r) id RawStatus.finishedCancelled) id =
          some { td with
                 task := { td.task.cancel with status := RawStatus.finishedCancelled }
                 end_date := some (r.clock + 1) } := by
        rw [lookupTask_completeTask_self, hlook]; rfl
      exact ⟨_, htd2, rfl, by omega⟩

/-- Witness for the amended C5 statement on the concrete registry
`regMixed` and its in-process record 1. -/
theorem end_date_write_paths_witness :
    lookupTask regMixed 1 = some tdStarted ∧
    tdStarted.is_in_process = true ∧
    ((∀ out : RawStatus, out ≠ RawStatus.notFinished →
      ∃ tdc, lookupTask (completeTask regMixed 1 out) 1 = some tdc ∧
        tdc.end_date = some regMixed.clock ∧ tdc.is_not_in_process = true) ∧
    (∃ td1, lookupTask (cancel_tasks (some [1]) regMixed).2 1 = some td1 ∧
      td1.end_date = some regMixed.clock ∧ td1.is_in_process = true ∧
      ∃ td2, lookupTask
          (completeTask (cancel_tasks (some [1]) regMixed).2 1 RawStatus.finishedCancelled) 1
          = some td2 ∧
        td2.end_date = some (regMixed.clock + 1) ∧
        regMixed.clock + 1 ≠ regMixed.clock)) :=
  ⟨by decide, by decide, end_date_write_paths regMixed 1 tdStarted (by decide) (by decide)⟩

/-- C6 counterexample: requesting the same unknown identity twice yields two
entries, not one entry per distinct identity as the claim states. -/
theorem read_duplicate_entries_cex :
    hasTask regMixed 5 = false ∧
    [5, 5].eraseDups.length = 1 ∧
    read_tasks (some [5, 5]) regMixed =
      [ReadEntry.err (ErrorInfo.not_exist_data 5),
       ReadEntry.err (ErrorInfo.not_exist_data 5)] := by
  decide

theorem count_map_readEntryOf (r : Registry) (id : Nat) (h : hasTask r id = false) :
    ∀ ids : List Nat,
      (ids.map (readEntryOf r)).count (ReadEntry.err (ErrorInfo.not_exist_data id)) =
        ids.count id
  | [] => rfl
  | a :: ids => by
    have hnone : lookupTask r id = none := by
      cases hl : lookupTask r id with
      | none => rfl
      | some td => rw [hasTask, hl] at h; exact absurd h (by simp)
    rw [List.map_cons, List.count_cons, List.count_cons,
      count_map_readEntryOf r id h ids]
    congr 1
    by_cases ha : a = id
    · subst ha
      simp [readEntryOf, hnone]
    · have : readEntryOf r a ≠ ReadEntry.err (ErrorInfo.not_exist_data id) := by
        unfold readEntryOf
        cases hl : lookupTask r a with
        | some td => simp
        | none =>
          simp [ErrorInfo.not_exist_data]
          intro hcontra
          exact absurd hcontra ha
      simp [this, ha]

/-- C6 amended: `read_tasks` does not deduplicate its request list — it
returns exactly one entry per element of the list (so k occurrences of an
identity yield k entries), each entry being the record's `TaskInfo` when the
identity is present and a not-exist error when it is absent; the operation
reads the registry without modifying it (it is a pure function of the
registry state). -/
theorem read_per_request_entry (ids : List Nat) (r : Registry) :
    (read_tasks (some ids) r).length = ids.length ∧
    (∀ id td, id ∈ ids → lookupTask r id = some td →
      ReadEntry.info (TaskInfo.from_task_data td) ∈ read_tasks (some ids) r) ∧
    (∀ id, id ∈ ids → hasTask r id = false →
      ReadEntry.err (ErrorInfo.not_exist_data id) ∈ read_tasks (some ids) r) ∧
    (∀ id, hasTask r id = false →
      (read_tasks (some ids) r).count (ReadEntry.err (ErrorInfo.not_exist_data id)) =
        ids.count id) := by
  refine ⟨by simp [read_tasks], ?_, ?_, ?_⟩
  · intro id td hid hlook
    show ReadEntry.info (TaskInfo.from_task_data td) ∈ ids.map (readEntryOf r)
    exact List.mem_map.2 ⟨id, hid, by simp [readEntryOf, hlook]⟩
  · intro id hid h
    have hnone : lookupTask r id = none := by
      cases hl : lookupTask r id with
      | none => rfl
      | some td => rw [hasTask, hl] at h; exact absurd h (by simp)
    show ReadEntry.err (ErrorInfo.not_exist_data id) ∈ ids.map (readEntryOf r)
    exact List.mem_map.2 ⟨id, hid, by simp [readEntryOf, hnone]⟩
  · intro id h
    exact count_map_readEntryOf r id h ids

/-- Witness for the amended C6 statement: the duplicate request `[5, 5]`
against `regMixed` yields two not-exist entries. -/
theorem read_per_request_entry_witness :
    (5 ∈ [5, 5] ∧ hasTask regMixed 5 = false) ∧
    ReadEntry.err (ErrorInfo.not_exist_data 5) ∈ read_tasks (some [5, 5]) regMixed ∧
    (read_tasks (some [5, 5]) regMixed).count
      (ReadEntry.err (ErrorInfo.not_exist_data 5)) = [5, 5].count 5 :=
  ⟨⟨by decide, by decide⟩,
   (read_per_request_entry [5, 5] regMixed).2.2.1 5 (by decide) (by decide),
   (read_per_request_entry [5, 5] regMixed).2.2.2 5 (by decide)⟩

/-- C9 counterexample: a bulk recreate on an in-process identity returns an
in-process error whose code is 0, not 1, and a bulk cancel on a terminal
identity returns a not-in-process error whose code is 0, not 2 — all three
error constructors share code 0, so distinct kinds do not carry distinct
codes. -/
theorem error_codes_not_distinct_cex :
    recreate_tasks [1] regDup =
      some ([ReadEntry.err { uuid := 1, error_code := 0, error_msg := "task is in process" }],
            regDup) ∧
    (cancel_tasks (some [2]) regMixed).1 =
      [{ uuid := 2, error_code := 0, error_msg := "task is not in process" }] := by
  decide

theorem cancelStep_errs (p : List ErrorInfo × Registry) (id : Nat) :
    ∀ e ∈ (cancelStep p id).1, e ∈ p.1 ∨ e.error_code = 0 := by
  unfold cancelStep
  cases hl : lookupTask p.2 id with
  | none =>
    intro e he
    simp at he
    rcases he with he | he
    · exact Or.inl he
    · right; rw [he]; rfl
  | some td =>
    by_cases h2 : td.is_not_in_process = true
    · simp only [h2, if_pos]
      intro e he
      simp at he
      rcases he with he | he
      · exact Or.inl he
      · right; rw [he]; rfl
    · simp only [if_neg h2]
      intro e he
      exact Or.inl he

theorem deleteStep_errs (p : List ErrorInfo × Registry) (id : Nat) :
    ∀ e ∈ (deleteStep p id).1, e ∈ p.1 ∨ e.error_code = 0 := by
  unfold deleteStep
  by_cases hl : hasTask p.2 id
  · simp only [hl, if_pos]
    intro e he
    exact Or.inl he
  · simp only [if_neg hl]
    intro e he
    simp at he
    rcases he with he | he
    · exact Or.inl he
    · right; rw [he]; rfl

theorem foldl_errs_zero (step : List ErrorInfo × Registry → Nat → List ErrorInfo × Registry)
    (hstep : ∀ p id, ∀ e ∈ (step p id).1, e ∈ p.1 ∨ e.error_code = 0) :
    ∀ (l : List Nat) (p : List ErrorInfo × Registry),
      (∀ e ∈ p.1, e.error_code = 0) → ∀ e ∈ (l.foldl step p).1, e.error_code = 0
  | [], _, hp => hp
  | id :: l, p, hp => by
    rw [List.foldl_cons]
    apply foldl_errs_zero step hstep l
    intro e he
    rcases hstep p id e he with h | h
    · exact hp e h
    · exact h

theorem recreateStep_errs (p : List ReadEntry × Registry) (id : Nat)
    (q : List ReadEntry × Registry) (hq : recreateStep p id = some q) :
    ∀ e : ErrorInfo, ReadEntry.err e ∈ q.1 → ReadEntry.err e ∈ p.1 ∨ e.error_code = 0 := by
  unfold recreateStep at hq
  cases hl : lookupTask p.2 id with
  | none =>
    rw [hl] at hq
    cases hq
    intro e he
    simp at he
    rcases he with he | he
    · exact Or.inl he
    · right; rw [show e = ErrorInfo.not_exist_data id from he]; rfl
  | some td =>
    rw [hl] at hq
    simp only [] at hq
    by_cases h2 : td.is_in_process = true
    · rw [if_pos h2] at hq
      cases hq
      intro e he
      simp at he
      rcases he with he | he
      · exact Or.inl he
      · right; rw [show e = ErrorInfo.in_process_data id from he]; rfl
    · rw [if_neg h2] at hq
      cases hc : _create_task td.name td.kwargs p.2 with
      | none => rw [hc] at hq; simp at hq
      | some ur =>
        rw [hc] at hq
        simp only [] at hq
        cases hl2 : lookupTask ur.2 ur.1 with
        | none => rw [hl2] at hq; simp at hq
        | some td2 =>
          rw [hl2] at hq
          simp only [] at hq
          cases hq
          intro e he
          rcases List.mem_append.1 he with he | he
          · exact Or.inl he
          · simp at he

theorem recreate_foldlM_errs :
    ∀ (l : List Nat) (p : List ReadEntry × Registry),
      (∀ e : ErrorInfo, ReadEntry.err e ∈ p.1 → e.error_code = 0) →
      ∀ res rr, l.foldlM recreateStep p = some (res, rr) →
      ∀ e : ErrorInfo, ReadEntry.err e ∈ res → e.error_code = 0
  | [], p, hp, res, rr, heq, e, he => by
    simp [List.foldlM] at heq
    rw [heq] at hp
    exact hp e he
  | id :: l, p, hp, res, rr, heq, e, he => by
    rw [List.foldlM_cons] at heq
    cases hs : recreateStep p id with
    | none => rw [hs] at heq; simp at heq
    | some q =>
      rw [hs] at heq
      simp only [Option.bind_eq_bind, Option.some_bind] at heq
      refine recreate_foldlM_errs l q ?_ res rr ?_ e he
      · intro e2 he2
        rcases recreateStep_errs p id q hs e2 he2 with h | h
        · exact hp e2 h
        · exact h
      · exact heq

/-- C9 amended: every error entry produced by any bulk operation carries
the integer code 0, regardless of kind — the three error kinds (not-exist,
in-process, not-in-process) are distinguished only by their message
strings, which are pairwise distinct; no operation ever emits the codes 1
or 2 that the claim assigns. -/
theorem error_codes_all_zero :
    (∀ ids r, ∀ e ∈ (cancel_tasks ids r).1, e.error_code = 0) ∧
    (∀ ids r, ∀ e ∈ (delete_tasks ids r).1, e.error_code = 0) ∧
    (∀ ids r res rr, recreate_tasks ids r = some (res, rr) →
      ∀ e : ErrorInfo, ReadEntry.err e ∈ res → e.error_code = 0) ∧
    (∀ ids r, ∀ e : ErrorInfo, ReadEntry.err e ∈ read_tasks ids r → e.error_code = 0) ∧
    (∀ u₁ u₂ : Nat,
      (ErrorInfo.not_exist_data u₁).error_msg ≠ (ErrorInfo.in_process_data u₂).error_msg ∧
      (ErrorInfo.not_exist_data u₁).error_msg ≠
        (ErrorInfo.not_in_process_data u₂).error_msg ∧
      (ErrorInfo.in_process_data u₁).error_msg ≠
        (ErrorInfo.not_in_process_data u₂).error_msg) := by
  refine ⟨?_, ?_, ?_, ?_, ?_⟩
  · intro ids r e he
    cases ids with
    | none => simp [cancel_tasks] at he
    | some l =>
      exact foldl_errs_zero cancelStep cancelStep_errs l.eraseDups ([], r)
        (by intro e2 he2; simp at he2) e he
  · intro ids r e he
    cases ids with
    | none => simp [delete_tasks] at he
    | some l =>
      exact foldl_errs_zero deleteStep deleteStep_errs l.eraseDups ([], r)
        (by intro e2 he2; simp at he2) e he
  · intro ids r res rr heq e he
    exact recreate_foldlM_errs ids.eraseDups ([], r)
      (by intro e2 he2; simp at he2) res rr heq e he
  · intro ids r e he
    cases ids with
    | none =>
      simp [read_tasks] at he
    | some l =>
      rcases List.mem_map.1 he with ⟨id, _, hid⟩
      unfold readEntryOf at hid
      cases hl : lookupTask r id with
      | some td => rw [hl] at hid; simp at hid
      | none =>
        rw [hl] at hid
        simp only [ReadEntry.err.injEq] at hid
        rw [← hid]
        rfl
  · intro u₁ u₂
    refine ⟨?_, ?_, ?_⟩ <;> simp [ErrorInfo.not_exist_data, ErrorInfo.in_process_data,
      ErrorInfo.not_in_process_data]

/-- Witness for the amended C9 statement, applied to a concrete cancel that
produces a not-in-process error. -/
theorem error_codes_all_zero_witness :
    { uuid := 2, error_code := 0, error_msg := "task is not in process" } ∈
      (cancel_tasks (some [2]) regMixed).1 ∧
    ({ uuid := 2, error_code := 0, error_msg := "task is not in process" } :
      ErrorInfo).error_code = 0 :=
  ⟨by decide,
   error_codes_all_zero.1 (some [2]) regMixed
     { uuid := 2, error_code := 0, error_msg := "task is not in process" } (by decide)⟩

/-! Properties of the `set(ids)` model `List.eraseDups`. -/

theorem mem_eraseDups_loop (x : Nat) :
    ∀ (as bs : List Nat), (x ∈ List.eraseDups.loop as bs ↔ x ∈ bs ∨ x ∈ as)
  | [], bs => by simp [List.eraseDups.loop]
  | a :: as, bs => by
    by_cases he : a ∈ bs
    · rw [show List.eraseDups.loop (a :: as) bs = List.eraseDups.loop as bs from by
        simp [List.eraseDups.loop, he]]
      rw [mem_eraseDups_loop x as bs]
      simp [List.mem_cons]
      constructor
      · tauto
      · rintro (h | h | h)
        · exact Or.inl h
        · rw [h]; exact Or.inl he
        · exact Or.inr h
    · rw [show List.eraseDups.loop (a :: as) bs = List.eraseDups.loop as (a :: bs) from by
        simp [List.eraseDups.loop, he]]
      rw [mem_eraseDups_loop x as (a :: bs)]
      simp [List.mem_cons]
      tauto

theorem nodup_eraseDups_loop :
    ∀ (as bs : List Nat), bs.Nodup → (List.eraseDups.loop as bs).Nodup
  | [], bs, h => by simpa [List.eraseDups.loop, List.nodup_reverse] using h
  | a :: as, bs, h => by
    by_cases he : a ∈ bs
    · rw [show List.eraseDups.loop (a :: as) bs = List.eraseDups.loop as bs from by
        simp [List.eraseDups.loop, he]]
      exact nodup_eraseDups_loop as bs h
    · rw [show List.eraseDups.loop (a :: as) bs = List.eraseDups.loop as (a :: bs) from by
        simp [List.eraseDups.loop, he]]
      exact nodup_eraseDups_loop as (a :: bs) (List.nodup_cons.2 ⟨he, h⟩)

theorem mem_eraseDups (x : Nat) (l : List Nat) : x ∈ l.eraseDups ↔ x ∈ l := by
  rw [List.eraseDups, mem_eraseDups_loop]
  simp

theorem nodup_eraseDups (l : List Nat) : l.eraseDups.Nodup :=
  nodup_eraseDups_loop l [] List.nodup_nil

/-! Presence and absence of identities. -/

theorem hasTask_false_iff (r : Registry) (id : Nat) :
    hasTask r id = false ↔ ∀ kv ∈ r.tasks, kv.1 ≠ id := by
  constructor
  · intro h kv hkv heq
    cases hf : r.tasks.find? (fun kv => decide (kv.1 = id)) with
    | some kv2 => rw [hasTask, lookupTask, hf] at h; cases h
    | none =>
      have := List.find?_eq_none.1 hf kv hkv
      simp [heq] at this
  · intro h
    have : r.tasks.find? (fun kv => decide (kv.1 = id)) = none :=
      List.find?_eq_none.2 (fun kv hkv => by simpa using h kv hkv)
    rw [hasTask, lookupTask, this]
    rfl

theorem lookupTask_eq_none (r : Registry) (id : Nat) (h : hasTask r id = false) :
    lookupTask r id = none := by
  rw [hasTask] at h
  cases hl : lookupTask r id with
  | none => rfl
  | some td => rw [hl] at h; cases h

theorem hasTask_updateTask (r : Registry) (j : Nat) (f : TaskData → TaskData) (i : Nat) :
    hasTask (updateTask r j f) i = hasTask r i := by
  by_cases h : i = j
  · rw [h, hasTask, hasTask, lookupTask_updateTask_self]
    cases lookupTask r j <;> rfl
  · rw [hasTask, hasTask, lookupTask_updateTask_ne r j i f h]

theorem hasTask_removeTask_false (r : Registry) (j i : Nat) (h : hasTask r i = false) :
    hasTask (removeTask r j) i = false := by
  rw [hasTask_false_iff] at h ⊢
  intro kv hkv
  exact h kv (List.mem_of_mem_filter hkv)

theorem absent_cancelTask (i j : Nat) (r : Registry) (h : Absent i r) :
    Absent i (_cancel_task j r) := by
  refine ⟨h.1, ?_⟩
  show hasTask (updateTask _ j _) i = false
  rw [hasTask_updateTask]
  exact h.2

theorem absent_completeTask (i j : Nat) (out : RawStatus) (r : Registry) (h : Absent i r) :
    Absent i (completeTask r j out) := by
  refine ⟨h.1, ?_⟩
  show hasTask (updateTask _ j _) i = false
  rw [hasTask_updateTask]
  exact h.2

theorem absent_deleteTask (i j : Nat) (r : Registry) (h : Absent i r) :
    Absent i (_delete_task j r) := by
  refine ⟨by rw [deleteTask_nextId]; exact h.1, ?_⟩
  unfold _delete_task
  by_cases hc : (lookupTask r j).any (fun td => ! td.task.done)
  · rw [if_pos hc]
    apply hasTask_removeTask_false
    rw [hasTask_updateTask]
    exact h.2
  · rw [if_neg hc]
    exact hasTask_removeTask_false _ _ _ h.2

theorem absent_createTask (i : Nat) (name : String) (kw : Kwargs) (r : Registry)
    (q : Nat × Registry) (h : Absent i r) (hc : _create_task name kw r = some q) :
    Absent i q.2 := by
  unfold _create_task at hc
  cases hf : r.tasks.find? (dupPred name kw) with
  | some kv =>
    rw [hf] at hc
    simp only [Option.some.injEq] at hc
    rw [← hc]
    exact h
  | none =>
    rw [hf] at hc
    cases hfm : factoryMake name with
    | none => rw [hfm] at hc; cases hc
    | some task =>
      rw [hfm] at hc
      simp only [Registry.now, Option.some.injEq] at hc
      rw [← hc]
      refine ⟨by simpa using Nat.lt_succ_of_lt h.1, ?_⟩
      rw [hasTask_false_iff]
      intro kv hkv
      rcases List.mem_append.1 hkv with hm | hm
      · exact (hasTask_false_iff r i).1 h.2 kv hm
      · have : kv = (r.nextId,
            { uuid := r.nextId, task := task, kwargs := kw,
              start_date := r.clock, end_date := none }) := by simpa using hm
        rw [this]
        have := h.1
        simp
        omega

theorem absent_recreateStep (i : Nat) (p : List ReadEntry × Registry) (j : Nat)
    (q : List ReadEntry × Registry) (h : Absent i p.2) (hs : recreateStep p j = some q) :
    Absent i q.2 := by
  unfold recreateStep at hs
  cases hl : lookupTask p.2 j with
  | none =>
    rw [hl] at hs
    cases hs
    exact h
  | some td =>
    rw [hl] at hs
    simp only [] at hs
    by_cases h2 : td.is_in_process = true
    · rw [if_pos h2] at hs
      cases hs
      exact h
    · rw [if_neg h2] at hs
      cases hc : _create_task td.name td.kwargs p.2 with
      | none => rw [hc] at hs; simp at hs
      | some ur =>
        rw [hc] at hs
        simp only [] at hs
        cases hl2 : lookupTask ur.2 ur.1 with
        | none => rw [hl2] at hs; simp at hs
        | some td2 =>
          rw [hl2] at hs
          simp only [] at hs
          cases hs
          exact absent_createTask i td.name td.kwargs p.2 ur h hc

theorem absent_recreateRun (i : Nat) :
    ∀ (l : List Nat) (r : Registry), Absent i r → Absent i (recreateRun r l)
  | [], r, h => h
  | j :: l, r, h => by
    unfold recreateRun
    cases hs : recreateStep ([], r) j with
    | none => exact h
    | some p =>
      exact absent_recreateRun i l p.2 (absent_recreateStep i ([], r) j p h hs)

theorem absent_cancel_fold (i : Nat) :
    ∀ (l : List Nat) (r : Registry), Absent i r →
      Absent i (l.foldl (fun acc id => _cancel_task id acc) r)
  | [], _, h => h
  | j :: l, r, h => by
    rw [List.foldl_cons]
    exact absent_cancel_fold i l (_cancel_task j r) (absent_cancelTask i j r h)

theorem absent_cancelStep_fold (i : Nat) :
    ∀ (l : List Nat) (p : List ErrorInfo × Registry), Absent i p.2 →
      Absent i (l.foldl cancelStep p).2
  | [], _, h => h
  | j :: l, p, h => by
    rw [List.foldl_cons]
    apply absent_cancelStep_fold i l
    unfold cancelStep
    cases hl : lookupTask p.2 j with
    | none => exact h
    | some td =>
      simp only []
      by_cases h2 : td.is_not_in_process = true
      · rw [if_pos h2]; exact h
      · rw [if_neg h2]; exact absent_cancelTask i j p.2 h

theorem absent_deleteStep_fold (i : Nat) :
    ∀ (l : List Nat) (p : List ErrorInfo × Registry), Absent i p.2 →
      Absent i (l.foldl deleteStep p).2
  | [], _, h => h
  | j :: l, p, h => by
    rw [List.foldl_cons]
    apply absent_deleteStep_fold i l
    unfold deleteStep
    by_cases hj : hasTask p.2 j
    · rw [if_pos hj]; exact absent_deleteTask i j p.2 h
    · rw [if_neg hj]; exact h

theorem absent_cancel_tasks (i : Nat) (ids : Option (List Nat)) (r : Registry)
    (h : Absent i r) : Absent i (cancel_tasks ids r).2 := by
  cases ids with
  | none => exact absent_cancel_fold i _ r h
  | some l => exact absent_cancelStep_fold i l.eraseDups ([], r) h

theorem absent_delete_tasks (i : Nat) (ids : Option (List Nat)) (r : Registry)
    (h : Absent i r) : Absent i (delete_tasks ids r).2 := by
  cases ids with
  | none => exact absent_cancel_fold i _ r h
  | some l => exact absent_deleteStep_fold i l.eraseDups ([], r) h

theorem absent_applyOp (i : Nat) (r : Registry) (op : Op) (h : Absent i r) :
    Absent i (applyOp r op) := by
  cases op with
  | create name kw =>
    show Absent i (match _create_task name kw r with | some p => p.2 | none => r)
    cases hc : _create_task name kw r with
    | none => exact h
    | some q => exact absent_createTask i name kw r q h hc
  | recreate ids => exact absent_recreateRun i ids.eraseDups r h
  | read ids => exact h
  | cancel ids => exact absent_cancel_tasks i ids r h
  | delete ids => exact absent_delete_tasks i ids r h
  | complete j out => exact absent_completeTask i j out r h

theorem absent_applyOps (i : Nat) :
    ∀ (ops : List Op) (r : Registry), Absent i r → Absent i (applyOps r ops)
  | [], _, h => h
  | op :: ops, r, h => by
    show Absent i (applyOps (applyOp r op) ops)
    exact absent_applyOps i ops (applyOp r op) (absent_applyOp i r op h)

/-! Responses of the bulk operations on an absent identity. -/

theorem read_tasks_absent (r : Registry) (i : Nat) (h : hasTask r i = false) :
    read_tasks (some [i]) r = [ReadEntry.err (ErrorInfo.not_exist_data i)] := by
  simp [read_tasks, readEntryOf, lookupTask_eq_none r i h]

theorem cancel_tasks_absent (r : Registry) (i : Nat) (h : hasTask r i = false) :
    cancel_tasks (some [i]) r = ([ErrorInfo.not_exist_data i], r) := by
  show [i].eraseDups.foldl cancelStep ([], r) = _
  rw [eraseDups_singleton]
  show cancelStep ([], r) i = _
  unfold cancelStep
  rw [lookupTask_eq_none r i h]
  rfl

theorem delete_tasks_absent (r : Registry) (i : Nat) (h : hasTask r i = false) :
    delete_tasks (some [i]) r = ([ErrorInfo.not_exist_data i], r) := by
  show [i].eraseDups.foldl deleteStep ([], r) = _
  rw [eraseDups_singleton]
  show deleteStep ([], r) i = _
  unfold deleteStep
  rw [if_neg (by rw [show ([], r).2 = r from rfl, h]; simp)]
  rfl

/-! The delete loop: error output and removal behaviour. -/

theorem delete_fold_nextId :
    ∀ (l : List Nat) (p : List ErrorInfo × Registry),
      (l.foldl deleteStep p).2.nextId = p.2.nextId
  | [], _ => rfl
  | j :: l, p => by
    rw [List.foldl_cons, delete_fold_nextId l]
    unfold deleteStep
    by_cases hj : hasTask p.2 j
    · rw [if_pos hj]
      exact deleteTask_nextId p.2 j
    · rw [if_neg hj]

theorem delete_fold_errs :
    ∀ (l : List Nat), l.Nodup → ∀ (es : List ErrorInfo) (q : Registry),
      (l.foldl deleteStep (es, q)).1 =
        es ++ (l.filter (fun i => ! hasTask q i)).map ErrorInfo.not_exist_data
  | [], _, es, q => by simp
  | j :: l, hnd, es, q => by
    have hndl : l.Nodup := (List.nodup_cons.1 hnd).2
    have hjl : j ∉ l := (List.nodup_cons.1 hnd).1
    rw [List.foldl_cons]
    by_cases hj : hasTask q j
    · have hstep : deleteStep (es, q) j = (es, _delete_task j q) := by
        unfold deleteStep; rw [if_pos hj]
      rw [hstep, delete_fold_errs l hndl es (_delete_task j q)]
      rw [List.filter_cons_of_neg (by simp [hj])]
      have hcongr : ∀ i ∈ l, (! hasTask (_delete_task j q) i) = (! hasTask q i) := by
        intro i hi
        have hne : i ≠ j := fun hh => hjl (hh ▸ hi)
        rw [hasTask, hasTask, lookupTask_deleteTask_ne q j i hne]
      rw [List.filter_congr hcongr]
    · have hstep : deleteStep (es, q) j = (es ++ [ErrorInfo.not_exist_data j], q) := by
        unfold deleteStep; rw [if_neg hj]
      rw [hstep, delete_fold_errs l hndl _ q]
      rw [List.filter_cons_of_pos (by simp [hj])]
      simp

theorem delete_fold_keeps_absent (i : Nat) :
    ∀ (l : List Nat) (p : List ErrorInfo × Registry),
      hasTask p.2 i = false → hasTask (l.foldl deleteStep p).2 i = false
  | [], _, h => h
  | j :: l, p, h => by
    rw [List.foldl_cons]
    apply delete_fold_keeps_absent i l
    unfold deleteStep
    by_cases hj : hasTask p.2 j
    · rw [if_pos hj]
      show hasTask (_delete_task j p.2) i = false
      by_cases hij : i = j
      · rw [hij, hasTask, lookupTask_deleteTask_self]; rfl
      · rw [hasTask, lookupTask_deleteTask_ne p.2 j i hij]; exact h
    · rw [if_neg hj]; exact h

theorem delete_fold_removes (i : Nat) :
    ∀ (l : List Nat) (p : List ErrorInfo × Registry),
      i ∈ l → hasTask (l.foldl deleteStep p).2 i = false
  | [], _, hm => absurd hm (List.not_mem_nil i)
  | j :: l, p, hm => by
    rw [List.foldl_cons]
    by_cases hij : i = j
    · apply delete_fold_keeps_absent i l
      unfold deleteStep
      by_cases hj : hasTask p.2 j
      · rw [if_pos hj]
        show hasTask (_delete_task j p.2) i = false
        rw [hij, hasTask, lookupTask_deleteTask_self]; rfl
      · rw [if_neg hj]
        show hasTask p.2 i = false
        rw [hij]
        simpa using hj
    · have hil : i ∈ l := by
        rcases List.mem_cons.1 hm with h | h
        · exact absurd h hij
        · exact h
      exact delete_fold_removes i l (deleteStep p j) hil

theorem factoryMake_eq (name : String) (task : ATask) (h : factoryMake name = some task) :
    name ∈ tasks_factory_names ∧
    task = { name := name, status := RawStatus.notFinished, cancelRequested := false } := by
  unfold factoryMake at h
  by_cases hn : name ∈ tasks_factory_names
  · rw [if_pos hn] at h
    exact ⟨hn, by injection h with h2; rw [h2]⟩
  · rw [if_neg hn] at h
    cases h

theorem mem_of_lookupTask (r : Registry) (i : Nat) (td : TaskData)
    (h : lookupTask r i = some td) : (i, td) ∈ r.tasks := by
  unfold lookupTask at h
  cases hf : r.tasks.find? (fun kv => decide (kv.1 = i)) with
  | none => rw [hf] at h; cases h
  | some kv =>
    rw [hf] at h
    have hk : kv.1 = i := by simpa using List.find?_some hf
    have hm := List.mem_of_find?_eq_some hf
    injection h with h2
    rw [← hk, ← h2]
    exact hm

/-- C1: deduplicating create.  First part: an immediately repeated create
with the same name and value-equal kwargs returns the same identity and
leaves the registry unchanged — no new unit of work is started — because
the record returned by the first call (found or freshly inserted) is still
in process.  Second part: when the record for identity `i` matching the
requested name and kwargs is terminal and no record with that key is in
process (which is what "the record for i has reached a terminal state"
means under the at-most-one-in-flight-per-key guarantee of the first part),
create starts a genuinely new job: it appends a brand-new record under the
fresh identity `nextId`, which is distinct from `i` and from every existing
identity. -/
theorem create_dedup_and_post_terminal :
    (∀ (name : String) (kw : Kwargs) (r : Registry) (i : Nat) (rr : Registry),
      _create_task name kw r = some (i, rr) →
      _create_task name kw rr = some (i, rr)) ∧
    (∀ (name : String) (kw : Kwargs) (r : Registry) (i : Nat) (td : TaskData),
      (∀ kv ∈ r.tasks, kv.2.uuid = kv.1 ∧ kv.1 < r.nextId) →
      lookupTask r i = some td →
      td.name = name → td.kwargs = kw → td.is_not_in_process = true →
      (∀ kv ∈ r.tasks, dupPred name kw kv = false) →
      name ∈ tasks_factory_names →
      hasTask r r.nextId = false ∧ r.nextId ≠ i ∧
      _create_task name kw r =
        some (r.nextId,
          { tasks := r.tasks ++
              [(r.nextId,
                { uuid := r.nextId
                  task := { name := name, status := RawStatus.notFinished,
                            cancelRequested := false }
                  kwargs := kw, start_date := r.clock, end_date := none })]
            nextId := r.nextId + 1, clock := r.clock + 1 })) := by
  constructor
  · intro name kw r i rr h
    unfold _create_task at h ⊢
    cases hf : r.tasks.find? (dupPred name kw) with
    | some kv =>
      rw [hf] at h
      simp only [Option.some.injEq, Prod.mk.injEq] at h
      rw [← h.2, ← h.1, hf]
    | none =>
      rw [hf] at h
      cases hfm : factoryMake name with
      | none => rw [hfm] at h; simp at h
      | some task =>
        rw [hfm] at h
        simp only [Registry.now, Option.some.injEq, Prod.mk.injEq] at h
        obtain ⟨htask_names, htask⟩ := factoryMake_eq name task hfm
        rw [← h.2, ← h.1]
        have hnew : dupPred name kw
            (r.nextId,
             { uuid := r.nextId, task := task, kwargs := kw,
               start_date := r.clock, end_date := none }) = true := by
          rw [htask]
          simp [dupPred, TaskData.name, TaskData.is_in_process, TaskData.state_result]
        rw [List.find?_append, hf]
        simp only [Option.none_or]
        rw [List.find?_cons_of_pos _ hnew]
  · intro name kw r i td hWf hlook hname hkw hterm hnodup hfac
    have hmem := mem_of_lookupTask r i td hlook
    have hib : i < r.nextId := (hWf (i, td) hmem).2
    refine ⟨?_, by omega, ?_⟩
    · rw [hasTask]
      unfold lookupTask
      rw [List.find?_eq_none.2]
      · rfl
      · intro kv hkv
        have := (hWf kv hkv).2
        simp
        omega
    · unfold _create_task
      rw [List.find?_eq_none.2
        (fun kv hkv => by rw [hnodup kv hkv]; simp)]
      rw [show factoryMake name = some
          { name := name, status := RawStatus.notFinished, cancelRequested := false }
          from by unfold factoryMake; rw [if_pos hfac]]
      rfl

/-- Witness for C1: a create on the empty registry followed by an identical
create returns identity 0 twice without growing the registry; and on
`regMixed`, whose record 2 is terminal with no in-process duplicate of its
key, an identical create launches a brand-new record under the fresh
identity 3. -/
theorem create_dedup_and_post_terminal_witness :
    (_create_task "sleep_10_task" [] { tasks := [], nextId := 0, clock := 0 } =
      some (0,
        { tasks := [(0,
            { uuid := 0
              task := { name := "sleep_10_task", status := RawStatus.notFinished,
                        cancelRequested := false }
              kwargs := [], start_date := 0, end_date := none })]
          nextId := 1, clock := 1 }) ∧
     _create_task "sleep_10_task" []
        { tasks := [(0,
            { uuid := 0
              task := { name := "sleep_10_task", status := RawStatus.notFinished,
                        cancelRequested := false }
              kwargs := [], start_date := 0, end_date := none })]
          nextId := 1, clock := 1 } =
      some (0,
        { tasks := [(0,
            { uuid := 0
              task := { name := "sleep_10_task", status := RawStatus.notFinished,
                        cancelRequested := false }
              kwargs := [], start_date := 0, end_date := none })]
          nextId := 1, clock := 1 })) ∧
    (hasTask regMixed regMixed.nextId = false ∧ regMixed.nextId ≠ 2 ∧
     _create_task "sleep_10_task" [("delay", Val.num 2)] regMixed =
      some (regMixed.nextId,
        { tasks := regMixed.tasks ++
            [(regMixed.nextId,
              { uuid := regMixed.nextId
                task := { name := "sleep_10_task", status := RawStatus.notFinished,
                          cancelRequested := false }
                kwargs := [("delay", Val.num 2)], start_date := regMixed.clock,
                end_date := none })]
          nextId := regMixed.nextId + 1, clock := regMixed.clock + 1 })) :=
  ⟨⟨by decide,
    create_dedup_and_post_terminal.1 "sleep_10_task" []
      { tasks := [], nextId := 0, clock := 0 } 0 _ (by decide)⟩,
   create_dedup_and_post_terminal.2 "sleep_10_task" [("delay", Val.num 2)]
     regMixed 2 tdDone (by decide) (by decide) (by decide) (by decide) (by decide)
     (by decide) (by decide)⟩

/-- C7: delete with identities.  The error list is exactly one not-exist
entry per distinct requested identity that is absent from the registry (so
present identities contribute no error); every requested identity is gone
from the map afterwards; a present, not-yet-done record has cancellation
requested on its handle before its removal; and a deleted identity is
permanently absent — after any further sequence of operations (creates,
recreates, reads, cancels, deletes, task completions), a read, cancel or
delete naming it still answers with the not-exist error. -/
theorem delete_finality (ids : List Nat) (r : Registry)
    (hWf : ∀ kv ∈ r.tasks, kv.1 < r.nextId) :
    ((delete_tasks (some ids) r).1 =
      (ids.eraseDups.filter (fun i => ! hasTask r i)).map ErrorInfo.not_exist_data) ∧
    (∀ i ∈ ids, hasTask (delete_tasks (some ids) r).2 i = false) ∧
    (∀ (i : Nat) (td : TaskData), lookupTask r i = some td → td.task.done = false →
      delete_tasks (some [i]) r =
        ([], removeTask
          (updateTask r i (fun td2 => { td2 with task := td2.task.cancel })) i)) ∧
    (∀ i, i ∈ ids → hasTask r i = true →
      ∀ ops : List Op,
        hasTask (applyOps (delete_tasks (some ids) r).2 ops) i = false ∧
        read_tasks (some [i]) (applyOps (delete_tasks (some ids) r).2 ops) =
          [ReadEntry.err (ErrorInfo.not_exist_data i)] ∧
        cancel_tasks (some [i]) (applyOps (delete_tasks (some ids) r).2 ops) =
          ([ErrorInfo.not_exist_data i], applyOps (delete_tasks (some ids) r).2 ops) ∧
        delete_tasks (some [i]) (applyOps (delete_tasks (some ids) r).2 ops) =
          ([ErrorInfo.not_exist_data i], applyOps (delete_tasks (some ids) r).2 ops)) := by
  refine ⟨?_, ?_, ?_, ?_⟩
  · show (ids.eraseDups.foldl deleteStep ([], r)).1 = _
    rw [delete_fold_errs ids.eraseDups (nodup_eraseDups ids) [] r]
    rfl
  · intro i hi
    exact delete_fold_removes i ids.eraseDups ([], r) ((mem_eraseDups i ids).2 hi)
  · intro i td hlook hdone
    show [i].eraseDups.foldl deleteStep ([], r) = _
    rw [eraseDups_singleton]
    show deleteStep ([], r) i = _
    have hh : hasTask r i = true := by rw [hasTask, hlook]; rfl
    unfold deleteStep
    rw [if_pos (by rw [show ([], r).2 = r from rfl]; exact hh)]
    show ([], _delete_task i r) = _
    unfold _delete_task
    rw [if_pos (by rw [hlook]; simp [hdone])]
  · intro i hi hpresent ops
    have habs : Absent i (delete_tasks (some ids) r).2 := by
      constructor
      · show i < (ids.eraseDups.foldl deleteStep ([], r)).2.nextId
        rw [delete_fold_nextId]
        cases hl : lookupTask r i with
        | none => rw [hasTask, hl] at hpresent; cases hpresent
        | some td => exact hWf (i, td) (mem_of_lookupTask r i td hl)
      · exact delete_fold_removes i ids.eraseDups ([], r) ((mem_eraseDups i ids).2 hi)
    have habs2 : Absent i (applyOps (delete_tasks (some ids) r).2 ops) :=
      absent_applyOps i ops _ habs
    exact ⟨habs2.2, read_tasks_absent _ i habs2.2, cancel_tasks_absent _ i habs2.2,
      delete_tasks_absent _ i habs2.2⟩

/-- Witness for C7 on `regMixed`: deleting the present identity 1 together
with the unknown identity 5 reports not-exist only for 5, removes 1, and
identity 1 still answers not-exist to a read issued after a subsequent
completion event and a fresh create. -/
theorem delete_finality_witness :
    (delete_tasks (some [1, 5]) regMixed).1 = [ErrorInfo.not_exist_data 5] ∧
    hasTask (delete_tasks (some [1, 5]) regMixed).2 1 = false ∧
    read_tasks (some [1])
        (applyOps (delete_tasks (some [1, 5]) regMixed).2
          [Op.complete 2 (RawStatus.finishedOk (Val.num 0)),
           Op.create "sleep_10_task" [("delay", Val.num 1)]]) =
      [ReadEntry.err (ErrorInfo.not_exist_data 1)] :=
  ⟨((delete_finality [1, 5] regMixed (by decide)).1).trans (by decide),
   (delete_finality [1, 5] regMixed (by decide)).2.1 1 (by decide),
   ((delete_finality [1, 5] regMixed (by decide)).2.2.2 1 (by decide) (by decide)
     [Op.complete 2 (RawStatus.finishedOk (Val.num 0)),
      Op.create "sleep_10_task" [("delay", Val.num 1)]]).2.1⟩

/-! The create path under a well-formed registry, as used by recreate. -/

theorem find?_key_of_mem_nodup :
    ∀ (l : List (Nat × TaskData)) (k : Nat) (v : TaskData),
      (l.map Prod.fst).Nodup → (k, v) ∈ l →
      l.find? (fun kv => decide (kv.1 = k)) = some (k, v)
  | [], _, _, _, hm => absurd hm (List.not_mem_nil _)
  | (k0, v0) :: l, k, v, hnd, hm => by
    have hnd' : (k0 :: l.map Prod.fst).Nodup := by
      simpa only [List.map_cons] using hnd
    have hnd2 := List.nodup_cons.1 hnd'
    by_cases hk : k0 = k
    · have hv : v0 = v := by
        rcases List.mem_cons.1 hm with h | h
        · injection h with h1 h2; rw [h2]
        · exfalso
          apply hnd2.1
          rw [hk]
          exact List.mem_map.2 ⟨(k, v), h, rfl⟩
      rw [List.find?_cons_of_pos _ (by simp [hk]), hk, hv]
    · have hm2 : (k, v) ∈ l := by
        rcases List.mem_cons.1 hm with h | h
        · injection h with h1 h2; exact absurd h1.symm hk
        · exact h
      rw [List.find?_cons_of_neg _ (by simp [hk])]
      exact find?_key_of_mem_nodup l k v hnd2.2 hm2

theorem lookupTask_of_mem (r : Registry) (k : Nat) (v : TaskData)
    (hnd : (r.tasks.map Prod.fst).Nodup) (hm : (k, v) ∈ r.tasks) :
    lookupTask r k = some v := by
  rw [lookupTask, find?_key_of_mem_nodup r.tasks k v hnd hm]
  rfl

theorem lookupTask_append_fresh (r rr : Registry) (n : Nat) (td : TaskData)
    (hrr : rr.tasks = r.tasks ++ [(n, td)])
    (hfresh : ∀ kv ∈ r.tasks, kv.1 ≠ n) :
    lookupTask rr n = some td := by
  rw [lookupTask, hrr, List.find?_append,
    List.find?_eq_none.2 (fun kv hkv => by simpa using hfresh kv hkv), Option.none_or,
    List.find?_cons_of_pos _ (by simp)]
  rfl

theorem createTask_spec (r : Registry) (name : String) (kw : Kwargs)
    (hWf : r.Wf) (hfac : name ∈ tasks_factory_names) :
    ∃ u rr, _create_task name kw r = some (u, rr) ∧ rr.Wf ∧
      (∃ td2, lookupTask rr u = some td2 ∧ td2.task.name = name ∧
        td2.kwargs = kw ∧ td2.is_in_process = true) ∧
      (rr = r ∨ (u = r.nextId ∧ rr.tasks.length = r.tasks.length + 1)) := by
  unfold _create_task
  cases hf : r.tasks.find? (dupPred name kw) with
  | some kv =>
    have hp : dupPred name kw kv = true := List.find?_some hf
    have hm : kv ∈ r.tasks := List.mem_of_find?_eq_some hf
    have hprops := of_decide_eq_true hp
    have huuid : kv.2.uuid = kv.1 := (hWf.2 kv hm).1
    refine ⟨kv.2.uuid, r, rfl, hWf, ⟨kv.2, ?_, hprops.1, hprops.2.1, hprops.2.2⟩,
      Or.inl rfl⟩
    rw [huuid]
    exact lookupTask_of_mem r kv.1 kv.2 hWf.1 hm
  | none =>
    rw [show factoryMake name = some
        { name := name, status := RawStatus.notFinished, cancelRequested := false }
        from by unfold factoryMake; rw [if_pos hfac]]
    simp only [Registry.now]
    refine ⟨r.nextId, _, rfl, ?_, ?_, Or.inr ⟨rfl, by simp⟩⟩
    · constructor
      · show ((r.tasks ++ [_]).map Prod.fst).Nodup
        rw [List.map_append]
        apply List.Nodup.append (by exact hWf.1) (by simp)
        intro a ha hb
        rcases List.mem_map.1 ha with ⟨kv, hkv, hfst⟩
        have hlt := (hWf.2 kv hkv).2.1
        have hb2 : a = r.nextId := by simpa using hb
        omega
      · intro kv hkv
        rcases List.mem_append.1 hkv with hm | hm
        · have h3 := hWf.2 kv hm
          refine ⟨h3.1, ?_, h3.2.2⟩
          show kv.1 < r.nextId + 1
          omega
        · have hkv2 : kv = (r.nextId,
              { uuid := r.nextId
                task := { name := name, status := RawStatus.notFinished,
                          cancelRequested := false }
                kwargs := kw, start_date := r.clock, end_date := none }) := by
            simpa using hm
          rw [hkv2]
          refine ⟨rfl, ?_, hfac⟩
          show r.nextId < r.nextId + 1
          omega
    · refine ⟨_, lookupTask_append_fresh r _ r.nextId _ rfl (fun kv hkv => by
        have := (hWf.2 kv hkv).2.1
        omega), rfl, rfl, rfl⟩

theorem recreateStep_spec (p : List ReadEntry × Registry) (id : Nat) (hWf : p.2.Wf) :
    ∃ q, recreateStep p id = some q ∧ q.2.Wf ∧ q.1.length = p.1.length + 1 := by
  unfold recreateStep
  cases hl : lookupTask p.2 id with
  | none => exact ⟨_, rfl, hWf, by simp⟩
  | some td =>
    simp only []
    by_cases h2 : td.is_in_process = true
    · rw [if_pos h2]
      exact ⟨_, rfl, hWf, by simp⟩
    · rw [if_neg h2]
      have hmem : (id, td) ∈ p.2.tasks := mem_of_lookupTask p.2 id td hl
      have hfac : td.name ∈ tasks_factory_names := (hWf.2 (id, td) hmem).2.2
      obtain ⟨u, rr, hcreate, hwf2, ⟨td2, hlk, hn2, hk2, hip2⟩, hcase⟩ :=
        createTask_spec p.2 td.name td.kwargs hWf hfac
      rw [hcreate]
      simp only []
      rw [hlk]
      exact ⟨_, rfl, hwf2, by simp⟩

theorem recreate_fold_spec :
    ∀ (l : List Nat) (p : List ReadEntry × Registry), p.2.Wf →
      ∃ res rr, l.foldlM recreateStep p = some (res, rr) ∧ Registry.Wf rr ∧
        res.length = p.1.length + l.length
  | [], p, h => ⟨p.1, p.2, by simp [List.foldlM], h, by simp⟩
  | j :: l, p, h => by
    obtain ⟨q, hq, hwf, hlen⟩ := recreateStep_spec p j h
    obtain ⟨res, rr, hfold, hwf2, hlen2⟩ := recreate_fold_spec l q hwf
    refine ⟨res, rr, ?_, hwf2, ?_⟩
    · rw [List.foldlM_cons, hq]
      simp only [Option.bind_eq_bind, Option.some_bind]
      exact hfold
    · rw [hlen2, hlen, List.length_cons]
      omega

theorem recreate_singleton_of_step (i : Nat) (r : Registry)
    (q : List ReadEntry × Registry) (hstep : recreateStep ([], r) i = some q) :
    recreate_tasks [i] r = some q := by
  show [i].eraseDups.foldlM recreateStep ([], r) = some q
  rw [eraseDups_singleton, List.foldlM_cons, hstep]
  simp [List.foldlM]

/-- C8 counterexample: in `regDup` the requested identity 0 is present and
terminal, yet recreate launches no new job at all — `_create_task` finds the
in-flight record 1 with the same name and kwargs and returns it, so the
output is record 1's info and the registry is unchanged (still two
records), where the claim promises a genuinely new job for every terminal
requested identity. -/
theorem recreate_dedup_cex :
    hasTask regDup 0 = true ∧
    tdTemplate.is_not_in_process = true ∧
    recreate_tasks [0] regDup =
      some ([ReadEntry.info (TaskInfo.from_task_data tdInflight)], regDup) ∧
    (recreate_tasks [0] regDup).map (fun q => q.2.tasks.length) = some 2 ∧
    regDup.tasks.length = 2 := by
  decide

/-- C8 amended: recreate processes each distinct requested identity in
isolation (the whole call succeeds and yields exactly one outcome per
distinct identity): absent identities yield a not-exist error, in-process
ones an in-process error, and for a terminal identity the registry runs
create with the record's type name and parameters as template — which
returns the info of an in-process job with that name and those parameters,
but launches a genuinely new record (under the fresh identity) only when no
in-process record with the same (name, kwargs) already exists; otherwise it
returns the existing in-flight job and starts nothing. -/
theorem recreate_per_item (ids : List Nat) (r : Registry) (hWf : r.Wf) :
    (∃ res rr, recreate_tasks ids r = some (res, rr) ∧
      res.length = ids.eraseDups.length) ∧
    (∀ i, hasTask r i = false →
      recreate_tasks [i] r = some ([ReadEntry.err (ErrorInfo.not_exist_data i)], r)) ∧
    (∀ i td, lookupTask r i = some td → td.is_in_process = true →
      recreate_tasks [i] r = some ([ReadEntry.err (ErrorInfo.in_process_data i)], r)) ∧
    (∀ i td, lookupTask r i = some td → td.is_in_process = false →
      ∃ u rr td2, _create_task td.name td.kwargs r = some (u, rr) ∧
        lookupTask rr u = some td2 ∧ td2.task.name = td.name ∧
        td2.kwargs = td.kwargs ∧ td2.is_in_process = true ∧
        recreate_tasks [i] r =
          some ([ReadEntry.info (TaskInfo.from_task_data td2)], rr) ∧
        (rr = r ∨ (u = r.nextId ∧ rr.tasks.length = r.tasks.length + 1))) := by
  refine ⟨?_, ?_, ?_, ?_⟩
  · obtain ⟨res, rr, hfold, hwf2, hlen⟩ := recreate_fold_spec ids.eraseDups ([], r) hWf
    exact ⟨res, rr, hfold, by simpa using hlen⟩
  · intro i h
    apply recreate_singleton_of_step
    unfold recreateStep
    rw [lookupTask_eq_none r i h]
    rfl
  · intro i td hl h2
    apply recreate_singleton_of_step
    unfold recreateStep
    rw [hl]
    simp only []
    rw [if_pos h2]
    rfl
  · intro i td hl h2
    have hmem : (i, td) ∈ r.tasks := mem_of_lookupTask r i td hl
    have hfac : td.name ∈ tasks_factory_names := (hWf.2 (i, td) hmem).2.2
    obtain ⟨u, rr, hcreate, hwf2, ⟨td2, hlk, hn2, hk2, hip2⟩, hcase⟩ :=
      createTask_spec r td.name td.kwargs hWf hfac
    refine ⟨u, rr, td2, hcreate, hlk, hn2, hk2, hip2, ?_, hcase⟩
    apply recreate_singleton_of_step
    unfold recreateStep
    rw [hl]
    simp only []
    rw [if_neg (by rw [h2]; simp)]
    rw [hcreate]
    simp only []
    rw [hlk]
    rfl

/-- Witness for the amended C8 statement on `regDup`: the bulk call over
the unknown identity 5, the terminal identity 0 and the in-process identity
1 yields exactly three outcomes, and the terminal identity 0 resolves
through the deduplicating create to the existing in-flight record 1 without
growing the registry. -/
theorem recreate_per_item_witness :
    (∃ res rr, recreate_tasks [5, 0, 1] regDup = some (res, rr) ∧
      res.length = [5, 0, 1].eraseDups.length) ∧
    recreate_tasks [5] regDup =
      some ([ReadEntry.err (ErrorInfo.not_exist_data 5)], regDup) ∧
    recreate_tasks [1] regDup =
      some ([ReadEntry.err (ErrorInfo.in_process_data 1)], regDup) ∧
    (∃ u rr td2, _create_task tdTemplate.name tdTemplate.kwargs regDup = some (u, rr) ∧
      lookupTask rr u = some td2 ∧ td2.task.name = tdTemplate.name ∧
      td2.kwargs = tdTemplate.kwargs ∧ td2.is_in_process = true ∧
      recreate_tasks [0] regDup =
        some ([ReadEntry.info (TaskInfo.from_task_data td2)], rr) ∧
      (rr = regDup ∨ (u = regDup.nextId ∧
        rr.tasks.length = regDup.tasks.length + 1))) :=
  ⟨(recreate_per_item [5, 0, 1] regDup (by unfold Registry.Wf; decide)).1,
   (recreate_per_item [5] regDup (by unfold Registry.Wf; decide)).2.1 5 (by decide),
   (recreate_per_item [1] regDup (by unfold Registry.Wf; decide)).2.2.1 1 tdInflight
     (by decide) (by decide),
   (recreate_per_item [0] regDup (by unfold Registry.Wf; decide)).2.2.2 0 tdTemplate
     (by decide) (by decide)⟩
